import Mathlib

/-!
# Spot-instance launcher (`aws/spot/spot.go`): a shallow embedding

The Go program reads a region catalog and a launch plan, resolves the region
of every plan entry, and starts one launcher task per entry.  Each task builds
one `RunInstances` request and then polls `DescribeInstances` a bounded number
of times, recording address/hostname pairs in the process-wide map
`myInstances`.

Modelling conventions.

* Go `string` is `String`; `strings.Compare(a, b) == 0` is string equality.
* Go `int` (`InstanceConfig.Number`) is `Int`; `/` on Go integers truncates
  toward zero, which is `Int.tdiv`.  Halving cannot overflow and the widening
  conversion `int64(..)` keeps the value.
* A Go `error` is represented by its message text; a `(T, error)` result is an
  `Except String T`.
* The slices `[]*Region`, `[]*InstanceConfig`, `[]*ec2.Reservation` and
  `[]*ec2.Instance` are lists of records (their element pointers are taken to
  be non-nil).  The SDK fields `PublicIpAddress` and `PublicDnsName` of
  `ec2.Instance` have type `*string`; they are `Option String`, `none` being
  the nil pointer, and dereferencing `none` is a run-time panic.
* The map `myInstances` is an association list with first-match lookup.
* The provider (session creation, `RunInstances`, `DescribeInstances`) is a
  parameter: `DescribeInstances` answers the `m`-th status query of a task.
* The `*debug` dumps only write to standard output and are left out.
-/

set_option maxRecDepth 100000

namespace Spot

/-! ## Data model -/

/-- The constant `WAIT_COUNT`. -/
def WAIT_COUNT : Nat := 60

structure Vpc where
  Id : String
  Sg : String
deriving DecidableEq, Repr

structure Ami where
  Default : String
  Al2 : String
deriving DecidableEq, Repr

structure Region where
  Name : String
  ExtName : String
  Vpc : Vpc
  Ami : Ami
  KeyPair : String
  Code : String
deriving DecidableEq, Repr

structure KeyFile where
  KeyPair : String
  KeyFile : String
deriving DecidableEq, Repr

structure UserDataStruct where
  Name : String
  File : String
deriving DecidableEq, Repr

structure AWSRegions where
  Regions : List Region
  KeyFiles : List KeyFile
  UserData : List UserDataStruct
deriving DecidableEq, Repr

/-- One launch-plan entry.  The Go field `Type` is spelled `InstanceType`
here, `Type` being reserved. -/
structure InstanceConfig where
  RegionName : String
  InstanceType : String
  Number : Int
  AmiName : String
deriving DecidableEq, Repr

/-! ## Resolvers -/

/-- The `for _, r := range regions.Regions` scan of `findRegion`. -/
def findRegionIn : List Region → String → Except String Region
  | [], name => .error ("Can't find the region: " ++ name)
  | r :: rest, name => if r.Name = name then .ok r else findRegionIn rest name

/-- The function `findRegion`. -/
def findRegion (regions : AWSRegions) (name : String) : Except String Region :=
  findRegionIn regions.Regions name

/-- The function `findAMI`: a two-way `switch` on the variant name.  The
trailing `return "", fmt.Errorf(..)` of the source is unreachable. -/
def findAMI (region : Region) (amiName : String) : Except String String :=
  if amiName = "al2" then .ok region.Ami.Al2 else .ok region.Ami.Default

/-! ## The process-wide address map `myInstances` -/

/-- A Go `map[string]string` as an association list; lookup takes the first
entry with the key.  A map value is a list with distinct keys (the empty map of
`make` is `[]`, and `set` keeps keys distinct), so `len` is the list length. -/
abbrev AddrMap := List (String × String)

/-- The comma-ok read `v, ok := m[k]`: `none` when `ok` is false. -/
def AddrMap.get? : AddrMap → String → Option String
  | [], _ => none
  | (k', v') :: rest, k => if k' = k then some v' else AddrMap.get? rest k

/-- The assignment `m[k] = v`: replaces the value of an existing key, adds the
key otherwise. -/
def AddrMap.set : AddrMap → String → String → AddrMap
  | [], k, v => [(k, v)]
  | (k', v') :: rest, k, v =>
    if k' = k then (k, v) :: rest else (k', v') :: AddrMap.set rest k v

/-! ## Provider data (`ec2` SDK types) -/

/-- The two fields of `ec2.Instance` the launcher reads, both `*string`. -/
structure Instance where
  PublicIpAddress : Option String
  PublicDnsName : Option String
deriving DecidableEq, Repr

structure Reservation where
  Instances : List Instance
deriving DecidableEq, Repr

structure DescribeInstancesOutput where
  Reservations : List Reservation
deriving DecidableEq, Repr

structure Tag where
  Key : String
  Value : String
deriving DecidableEq, Repr

structure TagSpecification where
  ResourceType : String
  Tags : List Tag
deriving DecidableEq, Repr

structure RunInstancesInput where
  ImageId : String
  InstanceType : String
  MinCount : Int
  MaxCount : Int
  KeyName : String
  SecurityGroupIds : List String
  TagSpecifications : List TagSpecification
deriving DecidableEq, Repr

/-- The package-level variables a launcher task reads: `whoami` (the `WHOAMI`
environment value), the run timestamp `now`, and the parsed `-tag` and
`-debug` flags. -/
structure Globals where
  whoami : String
  now : String
  tag : String
  debug : Int
deriving DecidableEq, Repr

/-- The declaration `tag = flag.String("tag", whoami, "a tag in instance name")`
after `flag.Parse()`: the command-line value when given, `whoami` otherwise. -/
def parseTagFlag (whoami : String) (cli : Option String) : String :=
  cli.getD whoami

/-- The external collaborator of one task.  `DescribeInstances ids m` is the
answer to the status query issued in loop iteration `m` with the
`reservation-id` filter values `ids`. -/
structure Provider where
  NewSession : String → Except String Unit
  RunInstances : RunInstancesInput → Except String String
  DescribeInstances : List String → Nat → Except String DescribeInstancesOutput

/-! ## The polling loop -/

/-- State threaded through the polling loop of one task. -/
structure PollState where
  /-- the map `myInstances` -/
  myInstances : AddrMap
  /-- number of `DescribeInstances` calls issued so far -/
  queries : Nat
  /-- number of instances whose loop body has been entered -/
  inspected : Nat
  /-- number of `time.Sleep(100 * time.Millisecond)` calls -/
  sleeps : Nat
  /-- a nil-pointer dereference has stopped the process -/
  panicked : Bool
deriving DecidableEq, Repr

/-- The body of `for _, inst := range r.Instances` (lines 263-269).  Both
`*inst.PublicIpAddress` and `*inst.PublicDnsName` dereference a `*string`;
on a nil pointer the state is marked `panicked`, and nothing runs after that. -/
def inspectInstance (st : PollState) (inst : Instance) : PollState :=
  if st.panicked then st else
  let st := { st with inspected := st.inspected + 1 }
  match inst.PublicIpAddress with
  | none => { st with panicked := true }
  | some ip =>
    if ip ≠ "" then
      match st.myInstances.get? ip with
      | some _ => st
      | none =>
        match inst.PublicDnsName with
        | none => { st with panicked := true }
        | some dns => { st with myInstances := st.myInstances.set ip dns }
    else { st with sleeps := st.sleeps + 1 }

/-- The loop `for _, inst := range r.Instances`. -/
def inspectReservation (st : PollState) (r : Reservation) : PollState :=
  r.Instances.foldl inspectInstance st

/-- The loop `for _, r := range result.Reservations` (lines 261-271). -/
def processResult (st : PollState) (result : DescribeInstancesOutput) : PollState :=
  result.Reservations.foldl inspectReservation st

/-- The loop `for m := 0; m < WAIT_COUNT; m++` (lines 247-272), entered at
iteration `m` with `fuel = WAIT_COUNT - m` iterations left.  An error answer
builds an error value that is dropped and breaks out of the loop. -/
def pollFrom (describe : Nat → Except String DescribeInstancesOutput) :
    Nat → Nat → PollState → PollState
  | 0, _, st => st
  | fuel + 1, m, st =>
    if st.panicked then st else
    let st := { st with queries := st.queries + 1 }
    match describe m with
    | .error _ => st
    | .ok result => pollFrom describe fuel (m + 1) (processResult st result)

/-- The whole polling loop of a task, from iteration 0. -/
def pollLoop (describe : Nat → Except String DescribeInstancesOutput)
    (st : PollState) : PollState :=
  pollFrom describe WAIT_COUNT 0 st

/-! ## The launcher task -/

/-- The `ec2.RunInstancesInput` literal of `launchSpotInstances`
(lines 199-217). -/
def runInstancesInput (g : Globals) (reg : Region) (i : InstanceConfig)
    (amiId : String) : RunInstancesInput :=
  { ImageId := amiId
    InstanceType := i.InstanceType
    MinCount := Int.tdiv i.Number 2
    MaxCount := i.Number
    KeyName := reg.KeyPair
    SecurityGroupIds := [reg.Vpc.Sg]
    TagSpecifications :=
      [{ ResourceType := "instance"
         Tags := [{ Key := "Name"
                    Value := reg.Code ++ "-" ++ g.whoami ++ "-" ++ g.now ++ "-1" }] }] }

/-- How a task ended: it returned (with its `error` result, `none` for nil) or
the process stopped on a panic. -/
inductive TaskEnd where
  | returned (err : Option String)
  | panicked
deriving DecidableEq, Repr

/-- What one run of `launchSpotInstances` did. -/
structure TaskResult where
  /-- the strings sent on the channel `messages`, in order -/
  messages : List String
  /-- the creation request handed to `RunInstances`, if the task got that far -/
  request : Option RunInstancesInput
  /-- number of `DescribeInstances` calls issued -/
  queries : Nat
  /-- the map `myInstances` when the task ended -/
  myInstances : AddrMap
  ending : TaskEnd
deriving DecidableEq, Repr

/-- The function `launchSpotInstances`, run against a provider, starting with
the map `myInstances = m0`. -/
def launchSpotInstances (g : Globals) (p : Provider) (m0 : AddrMap)
    (reg : Region) (i : InstanceConfig) : TaskResult :=
  let msgs := ["launching spot instances in region: " ++ reg.Name ++ "\n"]
  match p.NewSession reg.ExtName with
  | .error err =>
    { messages := msgs ++ [reg.Name ++ ": aws session Error: " ++ err]
      request := none, queries := 0, myInstances := m0
      ending := .returned (some ("aws session Error: " ++ err)) }
  | .ok _ =>
    match findAMI reg i.AmiName with
    | .error err =>
      { messages := msgs ++ [reg.Name ++ ": findAMI Error " ++ err]
        request := none, queries := 0, myInstances := m0
        ending := .returned (some ("findAMI Error " ++ err)) }
    | .ok amiId =>
      let input := runInstancesInput g reg i amiId
      match p.RunInstances input with
      | .error err =>
        { messages := msgs
          request := some input, queries := 0, myInstances := m0
          ending := .returned (some err) }
      | .ok reservationId =>
        let msgs := msgs ++
          [reg.Name ++ ": sleeping for " ++ toString WAIT_COUNT ++ " seconds\n"]
        let st := pollLoop (p.DescribeInstances [reservationId])
          { myInstances := m0, queries := 0, inspected := 0, sleeps := 0
            panicked := false }
        if st.panicked then
          { messages := msgs
            request := some input, queries := st.queries
            myInstances := st.myInstances, ending := .panicked }
        else
          { messages := msgs ++
              [reg.Name ++ ": " ++ toString st.myInstances.length ++ " instances"]
            request := some input, queries := st.queries
            myInstances := st.myInstances, ending := .returned none }

/-! ## The launch loop of `main` -/

/-- The effect of `exitErrorf` on a formatted message: the text written to
standard error and the exit status. -/
structure ProcessExit where
  status : Nat
  stderr : String
deriving DecidableEq, Repr

/-- The function `exitErrorf`, applied to the already formatted message. -/
def exitErrorf (formatted : String) : ProcessExit :=
  { status := 1, stderr := formatted ++ "\n" ++ "\n" }

/-- State of `main` while it runs the loop over `launches.RegionInstances`. -/
structure MainState where
  /-- the wait-group counter (`wg.Add(1)` calls so far) -/
  wg : Nat
  /-- the `go launchSpotInstances(region, r)` statements executed, in order -/
  started : List (Region × InstanceConfig)
  /-- set once `exitErrorf` has ended the process -/
  exit : Option ProcessExit
deriving DecidableEq, Repr

/-- The loop `for _, r := range launches.RegionInstances` of `main`
(lines 318-325). -/
def launchLoop (regions : AWSRegions) : List InstanceConfig → MainState → MainState
  | [], st => st
  | r :: rest, st =>
    let st := { st with wg := st.wg + 1 }
    match findRegion regions r.RegionName with
    | .error err => { st with exit := some (exitErrorf ("findRegion Error: " ++ err)) }
    | .ok region => launchLoop regions rest { st with started := st.started ++ [(region, r)] }

/-- The launch loop from the state `main` reaches it in: no task started. -/
def mainLaunch (regions : AWSRegions) (plan : List InstanceConfig) : MainState :=
  launchLoop regions plan { wg := 0, started := [], exit := none }

/-! ## Sample data (the catalog and plan of the specification's examples) -/

/-- The region record of the example catalog; its `al2` image is not set. -/
def usEast : Region :=
  { Name := "us-east", ExtName := "us-east-1", Vpc := { Id := "vpc-1", Sg := "sg-1" }
    Ami := { Default := "ami-default", Al2 := "" }, KeyPair := "kp1", Code := "ue" }

/-- The example catalog. -/
def sampleCatalog : AWSRegions :=
  { Regions := [usEast], KeyFiles := [], UserData := [] }

/-- A plan entry for `n` instances in the region called `region`. -/
def sampleEntry (region : String) (n : Int) : InstanceConfig :=
  { RegionName := region, InstanceType := "t3.micro", Number := n, AmiName := "" }

/-- Sample process globals: `WHOAMI=alice`, `-tag` as given. -/
def sampleGlobals (tag : String) : Globals :=
  { whoami := "alice", now := "2020-01-02_03_04_05", tag := tag, debug := 0 }

/-- A provider whose session and creation request succeed and whose status
queries answer as `describe` says. -/
def sampleProvider (describe : Nat → Except String DescribeInstancesOutput) : Provider :=
  { NewSession := fun _ => .ok ()
    RunInstances := fun _ => .ok "r-1"
    DescribeInstances := fun _ m => describe m }

/-- An instance whose address and hostname are both assigned. -/
def addressed (ip dns : String) : Instance :=
  { PublicIpAddress := some ip, PublicDnsName := some dns }

/-- A status answer holding one reservation with the given instances. -/
def answer (insts : List Instance) : DescribeInstancesOutput :=
  { Reservations := [{ Instances := insts }] }

/-- The state in which a task enters its polling loop. -/
def pollStart (m0 : AddrMap) : PollState :=
  { myInstances := m0, queries := 0, inspected := 0, sleeps := 0, panicked := false }

/-- Status answers in which address `1.2.3.4` shows up in iteration 3 with
hostname `host-a` and again in iteration 10 with hostname `host-b`; every other
answer is empty. -/
def repeatedAddress (m : Nat) : Except String DescribeInstancesOutput :=
  if m = 3 then .ok (answer [addressed "1.2.3.4" "host-a"])
  else if m = 10 then .ok (answer [addressed "1.2.3.4" "host-b"])
  else .ok (answer [])

/-- The map `m2` is `m1` followed by entries for addresses that `m1` does not
hold, each added once. -/
def Extends (m1 m2 : AddrMap) : Prop :=
  ∃ added : AddrMap, m2 = m1 ++ added ∧ (∀ e ∈ added, m1.get? e.1 = none) ∧
    (added.map Prod.fst).Nodup

/-- Both `*string` fields of the instance are non-nil. -/
def Instance.assigned (inst : Instance) : Bool :=
  inst.PublicIpAddress.isSome && inst.PublicDnsName.isSome

/-- Number of instances a status answer holds, over all its reservations. -/
def instanceCount (result : DescribeInstancesOutput) : Nat :=
  (result.Reservations.map fun r => r.Instances.length).sum

/-- Every instance of the answer has both `*string` fields non-nil. -/
def allAssigned (result : DescribeInstancesOutput) : Bool :=
  result.Reservations.all fun r => r.Instances.all Instance.assigned

/-- An instance to which the provider has assigned no address yet: both
`*string` fields are nil. -/
def unaddressed : Instance :=
  { PublicIpAddress := none, PublicDnsName := none }

/-- A provider whose session succeeds and whose creation request fails with
the error `capacity`. -/
def rejectingProvider : Provider :=
  { NewSession := fun _ => .ok ()
    RunInstances := fun _ => .error "capacity"
    DescribeInstances := fun _ _ => .ok (answer []) }

/-! ## Region resolver -/

theorem findRegionIn_found (rs : List Region) (name : String)
    (h : ∃ r ∈ rs, r.Name = name) :
    ∃ pre r post, rs = pre ++ r :: post ∧ (∀ x ∈ pre, x.Name ≠ name) ∧
      r.Name = name ∧ findRegionIn rs name = .ok r := by
  induction rs with
  | nil => simp at h
  | cons r rest ih =>
    by_cases hr : r.Name = name
    · exact ⟨[], r, rest, rfl, by simp, hr, by simp [findRegionIn, hr]⟩
    · have h' : ∃ x ∈ rest, x.Name = name := by
        obtain ⟨x, hx, hxn⟩ := h
        rcases List.mem_cons.mp hx with rfl | hx
        · exact absurd hxn hr
        · exact ⟨x, hx, hxn⟩
      obtain ⟨pre, x, post, e, hpre, hx, hf⟩ := ih h'
      refine ⟨r :: pre, x, post, by simp [e], ?_, hx, by simp [findRegionIn, hr, hf]⟩
      intro y hy
      rcases List.mem_cons.mp hy with rfl | hy
      · exact hr
      · exact hpre y hy

theorem findRegionIn_absent (rs : List Region) (name : String)
    (h : ∀ r ∈ rs, r.Name ≠ name) :
    findRegionIn rs name = .error ("Can't find the region: " ++ name) := by
  induction rs with
  | nil => rfl
  | cons r rest ih =>
    have hr : r.Name ≠ name := h r (List.mem_cons_self _ _)
    simp only [findRegionIn, hr, if_false]
    exact ih (fun x hx => h x (List.mem_cons_of_mem _ hx))

/-- C1: `findRegion` on a name carried by some record of the catalog returns
no error and the first record, in catalog order, whose `Name` is that name; on
a name no record carries it returns the not-found error and no record; so it
returns an error exactly when the name is absent from the catalog. -/
theorem findRegion_spec (regions : AWSRegions) (name : String) :
    ((∃ r ∈ regions.Regions, r.Name = name) →
      ∃ pre r post, regions.Regions = pre ++ r :: post ∧
        (∀ x ∈ pre, x.Name ≠ name) ∧ r.Name = name ∧
        findRegion regions name = .ok r) ∧
    ((¬ ∃ r ∈ regions.Regions, r.Name = name) →
      findRegion regions name = .error ("Can't find the region: " ++ name)) ∧
    ((∃ e, findRegion regions name = .error e) ↔
      ¬ ∃ r ∈ regions.Regions, r.Name = name) := by
  refine ⟨fun h => findRegionIn_found _ _ h, fun h => ?_, ?_⟩
  · exact findRegionIn_absent _ _ (fun r hr hn => h ⟨r, hr, hn⟩)
  · constructor
    · rintro ⟨e, he⟩ h
      obtain ⟨_, r, _, _, _, _, hf⟩ := findRegionIn_found _ _ h
      simp [findRegion, hf] at he
    · intro h
      exact ⟨_, findRegionIn_absent _ _ (fun r hr hn => h ⟨r, hr, hn⟩)⟩

/-- Witness for C1: in the example catalog `"us-east"` resolves to the record
`usEast`, and `"eu-west"` is reported missing. -/
theorem findRegion_spec_witness :
    (∃ pre r post, sampleCatalog.Regions = pre ++ r :: post ∧
        (∀ x ∈ pre, x.Name ≠ "us-east") ∧ r.Name = "us-east" ∧
        findRegion sampleCatalog "us-east" = .ok r) ∧
    findRegion sampleCatalog "eu-west" = .error ("Can't find the region: " ++ "eu-west") :=
  ⟨(findRegion_spec sampleCatalog "us-east").1 ⟨usEast, by simp [sampleCatalog], rfl⟩,
   (findRegion_spec sampleCatalog "eu-west").2.1 (by simp [sampleCatalog, usEast])⟩

/-! ## Image resolver -/

/-- C2: `findAMI` never returns an error; for the variant name `"al2"` the
image id is the region's `Ami.Al2` (the empty string when that field was never
set), and for every other name, the empty one included, it is `Ami.Default`. -/
theorem findAMI_spec (region : Region) (amiName : String) :
    (∃ id, findAMI region amiName = .ok id) ∧
    findAMI region "al2" = .ok region.Ami.Al2 ∧
    (amiName ≠ "al2" → findAMI region amiName = .ok region.Ami.Default) ∧
    findAMI region "" = .ok region.Ami.Default ∧
    findAMI usEast "al2" = .ok "" := by
  refine ⟨?_, by simp [findAMI], fun h => by simp [findAMI, h], by simp [findAMI], by
    simp [findAMI, usEast]⟩
  by_cases h : amiName = "al2" <;> simp [findAMI, h]

/-- Witness for C2: the unrecognised name `"ubuntu"` selects the default image
of the example region. -/
theorem findAMI_spec_witness : findAMI usEast "ubuntu" = .ok "ami-default" :=
  (findAMI_spec usEast "ubuntu").2.2.1 (by decide)

/-! ## The creation request -/

theorem launch_request (g : Globals) (p : Provider) (m0 : AddrMap) (reg : Region)
    (i : InstanceConfig) (hs : p.NewSession reg.ExtName = .ok ()) :
    ∃ amiId, findAMI reg i.AmiName = .ok amiId ∧
      (launchSpotInstances g p m0 reg i).request = some (runInstancesInput g reg i amiId) := by
  by_cases h : i.AmiName = "al2"
  · refine ⟨reg.Ami.Al2, by simp [findAMI, h], ?_⟩
    simp only [launchSpotInstances, hs, findAMI, h, if_true]
    split <;> [rfl; (split <;> rfl)]
  · refine ⟨reg.Ami.Default, by simp [findAMI, h], ?_⟩
    simp only [launchSpotInstances, hs, findAMI, h, if_false]
    split <;> [rfl; (split <;> rfl)]

/-- C3 (as stated, refuted): for the requested count -3 the request carries
`MinCount = -1`, while `floor(-3 / 2) = -2`. -/
theorem minCount_not_floor :
    ∃ req, (launchSpotInstances (sampleGlobals "alice") (sampleProvider fun _ => .error "x") []
        usEast (sampleEntry "us-east" (-3))).request = some req ∧
      req.MinCount = -1 ∧ ⌊(((sampleEntry "us-east" (-3)).Number : ℚ)) / 2⌋ = -2 ∧
      req.MinCount ≠ ⌊(((sampleEntry "us-east" (-3)).Number : ℚ)) / 2⌋ := by
  have hf : ⌊(((sampleEntry "us-east" (-3)).Number : ℚ)) / 2⌋ = -2 := by
    have := Rat.floor_intCast_div_natCast (-3) 2
    simpa [sampleEntry] using this
  refine ⟨_, rfl, by decide, hf, ?_⟩
  rw [hf]
  decide

/-- C3 (amended): once the session exists, the creation request built by
`launchSpotInstances` for an entry with requested count `n` has `MinCount`
equal to `n / 2` rounded toward zero and `MaxCount = n`; for `n ≥ 0` that
`MinCount` is `floor(n / 2)`. -/
theorem request_counts (g : Globals) (p : Provider) (m0 : AddrMap) (reg : Region)
    (i : InstanceConfig) (hs : p.NewSession reg.ExtName = .ok ()) :
    ∃ req, (launchSpotInstances g p m0 reg i).request = some req ∧
      req.MinCount = Int.tdiv i.Number 2 ∧ req.MaxCount = i.Number ∧
      (0 ≤ i.Number → req.MinCount = ⌊((i.Number : ℚ)) / 2⌋) := by
  obtain ⟨amiId, _, hreq⟩ := launch_request g p m0 reg i hs
  refine ⟨_, hreq, rfl, rfl, fun h0 => ?_⟩
  have h := Rat.floor_intCast_div_natCast i.Number 2
  simp only [Nat.cast_ofNat] at h
  rw [h]
  show Int.tdiv i.Number 2 = i.Number / 2
  exact Int.tdiv_eq_ediv h0 (by decide)

/-- Witness for C3: the example entry asking for 4 instances gives a request
with minimum 2 and maximum 4. -/
theorem request_counts_witness :
    ∃ req, (launchSpotInstances (sampleGlobals "alice") (sampleProvider fun _ => .error "x") []
        usEast (sampleEntry "us-east" 4)).request = some req ∧
      req.MinCount = 2 ∧ req.MaxCount = 4 := by
  obtain ⟨req, h, hmin, hmax, _⟩ := request_counts (sampleGlobals "alice")
    (sampleProvider fun _ => .error "x") [] usEast (sampleEntry "us-east" 4) rfl
  exact ⟨req, h, by rw [hmin]; decide, by rw [hmax]; rfl⟩

/-! ## The address map -/

theorem get?_append_some (m added : AddrMap) (k h : String)
    (hk : m.get? k = some h) : (m ++ added).get? k = some h := by
  induction m with
  | nil => simp [AddrMap.get?] at hk
  | cons e rest ih =>
    obtain ⟨k', v'⟩ := e
    by_cases he : k' = k
    · simpa [AddrMap.get?, he] using hk
    · simp only [AddrMap.get?, he, if_false] at hk
      simpa [AddrMap.get?, he] using ih hk

theorem get?_append_none (m added : AddrMap) (k : String)
    (hk : m.get? k = none) : (m ++ added).get? k = added.get? k := by
  induction m with
  | nil => rfl
  | cons e rest ih =>
    obtain ⟨k', v'⟩ := e
    by_cases he : k' = k
    · simp [AddrMap.get?, he] at hk
    · simp only [AddrMap.get?, he, if_false] at hk
      simpa [AddrMap.get?, he] using ih hk

theorem get?_eq_none_iff (m : AddrMap) (k : String) :
    m.get? k = none ↔ k ∉ m.map Prod.fst := by
  induction m with
  | nil => simp [AddrMap.get?]
  | cons e rest ih =>
    obtain ⟨k', v'⟩ := e
    by_cases he : k' = k
    · simp [AddrMap.get?, he]
    · have he' : ¬ k = k' := fun h => he h.symm
      simp [AddrMap.get?, he, he', ih]

theorem set_of_absent (m : AddrMap) (k v : String) (hk : m.get? k = none) :
    m.set k v = m ++ [(k, v)] := by
  induction m with
  | nil => rfl
  | cons e rest ih =>
    obtain ⟨k', v'⟩ := e
    by_cases he : k' = k
    · simp [AddrMap.get?, he] at hk
    · simp only [AddrMap.get?, he, if_false] at hk
      simp [AddrMap.set, he, ih hk]

theorem Extends.refl (m : AddrMap) : Extends m m :=
  ⟨[], by simp, by simp, by simp⟩

theorem Extends.step {m1 m2 : AddrMap} (h : Extends m1 m2) (k v : String)
    (hk : m2.get? k = none) : Extends m1 (m2.set k v) := by
  obtain ⟨added, rfl, habs, hnd⟩ := h
  have hnot : k ∉ (m1 ++ added).map Prod.fst := (get?_eq_none_iff _ _).mp hk
  simp only [List.map_append, List.mem_append, not_or] at hnot
  refine ⟨added ++ [(k, v)], ?_, ?_, ?_⟩
  · rw [set_of_absent _ _ _ hk, List.append_assoc]
  · intro e he
    rcases List.mem_append.mp he with he | he
    · exact habs e he
    · simp only [List.mem_singleton] at he
      subst he
      exact (get?_eq_none_iff _ _).mpr hnot.1
  · rw [List.map_append, List.nodup_append]
    refine ⟨hnd, by simp, ?_⟩
    intro a ha hb
    simp only [List.map_cons, List.map_nil, List.mem_singleton] at hb
    subst hb
    exact hnot.2 ha

theorem Extends.get? {m1 m2 : AddrMap} (h : Extends m1 m2) (k v : String)
    (hk : m1.get? k = some v) : m2.get? k = some v := by
  obtain ⟨added, rfl, _, _⟩ := h
  exact get?_append_some _ _ _ _ hk

/-! ## The polling loop: the map only grows -/

theorem inspectInstance_extends (m : AddrMap) (st : PollState) (inst : Instance)
    (h : Extends m st.myInstances) : Extends m (inspectInstance st inst).myInstances := by
  obtain ⟨ip, dns⟩ := inst
  by_cases hp : st.panicked = true
  · simpa [inspectInstance, hp] using h
  · cases ip with
    | none => simpa [inspectInstance, hp] using h
    | some ip =>
      by_cases hip : ip = ""
      · simpa [inspectInstance, hp, hip] using h
      · cases hg : st.myInstances.get? ip with
        | some v => simpa [inspectInstance, hp, hip, hg] using h
        | none =>
          cases dns with
          | none => simpa [inspectInstance, hp, hip, hg] using h
          | some dns => simpa [inspectInstance, hp, hip, hg] using h.step ip dns hg

theorem inspectReservation_extends (m : AddrMap) (r : Reservation) (st : PollState)
    (h : Extends m st.myInstances) : Extends m (inspectReservation st r).myInstances := by
  unfold inspectReservation
  induction r.Instances generalizing st with
  | nil => exact h
  | cons inst rest ih => exact ih _ (inspectInstance_extends m st inst h)

theorem processResult_extends (m : AddrMap) (result : DescribeInstancesOutput)
    (st : PollState) (h : Extends m st.myInstances) :
    Extends m (processResult st result).myInstances := by
  unfold processResult
  induction result.Reservations generalizing st with
  | nil => exact h
  | cons r rest ih => exact ih _ (inspectReservation_extends m r st h)

theorem pollFrom_extends (describe : Nat → Except String DescribeInstancesOutput)
    (m0 : AddrMap) (fuel m : Nat) (st : PollState) (h : Extends m0 st.myInstances) :
    Extends m0 (pollFrom describe fuel m st).myInstances := by
  induction fuel generalizing m st with
  | zero => exact h
  | succ fuel ih =>
    unfold pollFrom
    split
    · exact h
    · split
      · exact h
      · exact ih _ _ (processResult_extends m0 _ _ h)

theorem inspectInstance_present (st : PollState) (inst : Instance) (k h : String)
    (hk : st.myInstances.get? k = some h) (hi : inst.PublicIpAddress = some k) :
    (inspectInstance st inst).myInstances = st.myInstances := by
  obtain ⟨ip, dns⟩ := inst
  simp only at hi
  subst hi
  by_cases hp : st.panicked = true
  · simp [inspectInstance, hp]
  · by_cases hip : k = ""
    · simp [inspectInstance, hp, hip]
    · simp [inspectInstance, hp, hip, hk]

/-- C4: the map `myInstances` only grows and never overwrites.  An address
that is a key before a poll result is processed (or before the polling loop
runs any number of iterations over any answers) is a key afterwards with the
same hostname; the map after a poll result is the map before followed by
entries for addresses it did not hold, each added once; and an instance whose
address is already a key leaves the map as it is. -/
theorem myInstances_only_grows (describe : Nat → Except String DescribeInstancesOutput)
    (fuel m : Nat) (st : PollState) (result : DescribeInstancesOutput) (k h : String)
    (hk : st.myInstances.get? k = some h) :
    (processResult st result).myInstances.get? k = some h ∧
    (pollFrom describe fuel m st).myInstances.get? k = some h ∧
    (pollLoop describe st).myInstances.get? k = some h ∧
    (∃ added : AddrMap, (processResult st result).myInstances = st.myInstances ++ added ∧
      (∀ e ∈ added, st.myInstances.get? e.1 = none) ∧ (added.map Prod.fst).Nodup) ∧
    (∀ inst : Instance, inst.PublicIpAddress = some k →
      (inspectInstance st inst).myInstances = st.myInstances) :=
  ⟨(processResult_extends _ result st (Extends.refl _)).get? k h hk,
   (pollFrom_extends describe _ fuel m st (Extends.refl _)).get? k h hk,
   (pollFrom_extends describe _ WAIT_COUNT 0 st (Extends.refl _)).get? k h hk,
   processResult_extends _ result st (Extends.refl _),
   fun inst hi => inspectInstance_present st inst k h hk hi⟩

/-- Witness for C4: with `1.2.3.4 -> host-a` recorded, an answer that reports
`1.2.3.4` with hostname `host-b` keeps `host-a`; and a whole polling loop that
sees the address in iteration 3 and again in iteration 10 ends with the
single entry `1.2.3.4 -> host-a`. -/
theorem myInstances_only_grows_witness :
    (processResult (pollStart [("1.2.3.4", "host-a")])
        (answer [addressed "1.2.3.4" "host-b"])).myInstances.get? "1.2.3.4" = some "host-a" ∧
    (pollLoop repeatedAddress (pollStart [])).myInstances = [("1.2.3.4", "host-a")] :=
  ⟨(myInstances_only_grows repeatedAddress 0 0 (pollStart [("1.2.3.4", "host-a")])
      (answer [addressed "1.2.3.4" "host-b"]) "1.2.3.4" "host-a" (by decide)).1, by decide⟩

/-! ## The polling loop: inspection and panics -/

theorem inspectInstance_queries (st : PollState) (inst : Instance) :
    (inspectInstance st inst).queries = st.queries := by
  obtain ⟨ip, dns⟩ := inst
  by_cases hp : st.panicked = true
  · simp [inspectInstance, hp]
  · cases ip with
    | none => simp [inspectInstance, hp]
    | some ip =>
      by_cases hip : ip = ""
      · simp [inspectInstance, hp, hip]
      · cases hg : st.myInstances.get? ip with
        | some v => simp [inspectInstance, hp, hip, hg]
        | none => cases dns <;> simp [inspectInstance, hp, hip, hg]

theorem inspectReservation_queries (r : Reservation) (st : PollState) :
    (inspectReservation st r).queries = st.queries := by
  unfold inspectReservation
  induction r.Instances generalizing st with
  | nil => rfl
  | cons inst rest ih => rw [List.foldl_cons, ih, inspectInstance_queries]

theorem processResult_queries (result : DescribeInstancesOutput) (st : PollState) :
    (processResult st result).queries = st.queries := by
  unfold processResult
  induction result.Reservations generalizing st with
  | nil => rfl
  | cons r rest ih => rw [List.foldl_cons, ih, inspectReservation_queries]

theorem inspectInstance_assigned (st : PollState) (inst : Instance)
    (hp : st.panicked = false) (ha : inst.assigned = true) :
    (inspectInstance st inst).panicked = false ∧
    (inspectInstance st inst).inspected = st.inspected + 1 := by
  obtain ⟨ip, dns⟩ := inst
  cases ip with
  | none => simp [Instance.assigned] at ha
  | some ip =>
    cases dns with
    | none => simp [Instance.assigned] at ha
    | some dns =>
      by_cases hip : ip = ""
      · simp [inspectInstance, hp, hip]
      · cases hg : st.myInstances.get? ip <;> simp [inspectInstance, hp, hip, hg]

theorem inspectReservation_assigned (r : Reservation) (st : PollState)
    (hp : st.panicked = false) (ha : r.Instances.all Instance.assigned = true) :
    (inspectReservation st r).panicked = false ∧
    (inspectReservation st r).inspected = st.inspected + r.Instances.length := by
  unfold inspectReservation
  generalize r.Instances = l at ha ⊢
  induction l generalizing st with
  | nil => exact ⟨hp, rfl⟩
  | cons inst rest ih =>
    simp only [List.all_cons, Bool.and_eq_true] at ha
    obtain ⟨h1, h2⟩ := inspectInstance_assigned st inst hp ha.1
    obtain ⟨h3, h4⟩ := ih (inspectInstance st inst) h1 ha.2
    refine ⟨h3, ?_⟩
    rw [List.foldl_cons, h4, h2, List.length_cons]
    omega

theorem processResult_assigned (result : DescribeInstancesOutput) (st : PollState)
    (hp : st.panicked = false) (ha : allAssigned result = true) :
    (processResult st result).panicked = false ∧
    (processResult st result).inspected = st.inspected + instanceCount result := by
  unfold processResult allAssigned instanceCount at *
  generalize result.Reservations = l at ha ⊢
  induction l generalizing st with
  | nil => exact ⟨hp, rfl⟩
  | cons r rest ih =>
    simp only [List.all_cons, Bool.and_eq_true] at ha
    obtain ⟨h1, h2⟩ := inspectReservation_assigned r st hp ha.1
    obtain ⟨h3, h4⟩ := ih (inspectReservation st r) h1 ha.2
    refine ⟨h3, ?_⟩
    rw [List.foldl_cons, h4, h2, List.map_cons, List.sum_cons]
    omega

/-- An instance whose address is the empty string leaves the map as it is,
does not stop the task, and costs one backoff sleep. -/
theorem inspectInstance_empty_address (st : PollState) (dns : Option String)
    (hp : st.panicked = false) :
    inspectInstance st { PublicIpAddress := some "", PublicDnsName := dns } =
      { st with inspected := st.inspected + 1, sleeps := st.sleeps + 1 } := by
  simp [inspectInstance, hp]

/-- C7 (the code at the failing input): a poll result whose first instance has
no address assigned (nil `PublicIpAddress`) followed by an instance with
address `1.2.3.4`.  Dereferencing the nil pointer panics: one instance has
been inspected, the second one never is, and its address is not recorded. -/
theorem nil_address_stops_inspection :
    instanceCount (answer [unaddressed, addressed "1.2.3.4" "host-a"]) = 2 ∧
    (processResult (pollStart [])
      (answer [unaddressed, addressed "1.2.3.4" "host-a"])).panicked = true ∧
    (processResult (pollStart [])
      (answer [unaddressed, addressed "1.2.3.4" "host-a"])).inspected = 1 ∧
    (processResult (pollStart [])
      (answer [unaddressed, addressed "1.2.3.4" "host-a"])).myInstances.get? "1.2.3.4" = none ∧
    (launchSpotInstances (sampleGlobals "alice")
      (sampleProvider fun _ => .ok (answer [unaddressed, addressed "1.2.3.4" "host-a"])) []
      usEast (sampleEntry "us-east" 4)).ending = TaskEnd.panicked := by
  decide

/-! ## The polling loop: number of status queries -/

theorem pollFrom_queries_le (describe : Nat → Except String DescribeInstancesOutput)
    (fuel m : Nat) (st : PollState) :
    (pollFrom describe fuel m st).queries ≤ st.queries + fuel := by
  induction fuel generalizing m st with
  | zero => simp [pollFrom]
  | succ fuel ih =>
    unfold pollFrom
    split
    · omega
    · split
      · simp only; omega
      · refine le_trans (ih _ _) ?_
        rw [processResult_queries]
        simp only; omega

theorem pollFrom_queries_exact (describe : Nat → Except String DescribeInstancesOutput)
    (fuel m : Nat) (st : PollState) (hp : st.panicked = false)
    (hok : ∀ j, j < fuel → ∃ r, describe (m + j) = .ok r ∧ allAssigned r = true) :
    (pollFrom describe fuel m st).queries = st.queries + fuel ∧
    (pollFrom describe fuel m st).panicked = false := by
  induction fuel generalizing m st with
  | zero => exact ⟨rfl, hp⟩
  | succ fuel ih =>
    obtain ⟨r, hr, ha⟩ := hok 0 (Nat.succ_pos _)
    rw [Nat.add_zero] at hr
    have hstep : pollFrom describe (fuel + 1) m st =
        pollFrom describe fuel (m + 1)
          (processResult { st with queries := st.queries + 1 } r) := by
      simp [pollFrom, hp, hr]
    have hp' := (processResult_assigned r { st with queries := st.queries + 1 } hp ha).1
    have hq := processResult_queries r { st with queries := st.queries + 1 }
    obtain ⟨h1, h2⟩ := ih (m + 1) _ hp' (fun j hj => by
      have := hok (j + 1) (Nat.succ_lt_succ hj)
      rwa [show m + (j + 1) = m + 1 + j by omega] at this)
    rw [hstep]
    refine ⟨?_, h2⟩
    rw [h1, hq]
    simp only; omega

theorem pollFrom_stops_at_error (describe : Nat → Except String DescribeInstancesOutput)
    (fuel m j : Nat) (st : PollState) (e : String) (hj : j < fuel)
    (herr : describe (m + j) = .error e) :
    (pollFrom describe fuel m st).queries ≤ st.queries + j + 1 := by
  induction fuel generalizing m j st with
  | zero => omega
  | succ fuel ih =>
    unfold pollFrom
    split
    · omega
    · split
      · simp only; omega
      · rename_i result hres
        cases j with
        | zero => rw [Nat.add_zero, hres] at herr; cases herr
        | succ j =>
          have h := ih (m + 1) j (processResult { st with queries := st.queries + 1 } result)
            (Nat.lt_of_succ_lt_succ hj) (by rwa [show m + 1 + j = m + (j + 1) by omega])
          rw [processResult_queries] at h
          dsimp only at h ⊢
          omega

/-- A task issues at most `WAIT_COUNT` status queries whatever the provider
answers, and a polling loop entered with a recorded address keeps it. -/
theorem launch_queries_le (g : Globals) (p : Provider) (m0 : AddrMap) (reg : Region)
    (i : InstanceConfig) : (launchSpotInstances g p m0 reg i).queries ≤ WAIT_COUNT := by
  have hq : ∀ d, (pollLoop d (pollStart m0)).queries ≤ WAIT_COUNT := fun d => by
    have := pollFrom_queries_le d WAIT_COUNT 0 (pollStart m0)
    simpa [pollLoop, pollStart] using this
  cases hs : p.NewSession reg.ExtName with
  | error e => simp [launchSpotInstances, hs]
  | ok u =>
    obtain ⟨amiId, hami⟩ : ∃ amiId, findAMI reg i.AmiName = .ok amiId := by
      by_cases h : i.AmiName = "al2" <;> simp [findAMI, h]
    cases hr : p.RunInstances (runInstancesInput g reg i amiId) with
    | error e => simp [launchSpotInstances, hs, hami, hr]
    | ok rid =>
      have h := hq (p.DescribeInstances [rid])
      simp only [launchSpotInstances, hs, hami, hr]
      split <;> exact h

/-- C10 (the code at the failing input): every status answer is a success
(none is an error) holding one instance that has no address assigned (nil
`PublicIpAddress`); the task issues a single status query, not 60, and ends in
a panic. -/
theorem poll_cut_short_by_nil_address :
    (∀ m, (sampleProvider fun _ => .ok (answer [unaddressed])).DescribeInstances ["r-1"] m =
      .ok (answer [unaddressed])) ∧
    (launchSpotInstances (sampleGlobals "alice")
      (sampleProvider fun _ => .ok (answer [unaddressed])) []
      usEast (sampleEntry "us-east" 4)).queries = 1 ∧
    (launchSpotInstances (sampleGlobals "alice")
      (sampleProvider fun _ => .ok (answer [unaddressed])) []
      usEast (sampleEntry "us-east" 4)).ending = TaskEnd.panicked :=
  ⟨fun _ => rfl, by decide, by decide⟩

/-! ## The launcher task: messages and name tag -/

/-- A failed session creation is reported on the channel `messages`. -/
theorem session_error_logged (g : Globals) (p : Provider) (m0 : AddrMap) (reg : Region)
    (i : InstanceConfig) (err : String) (hs : p.NewSession reg.ExtName = .error err) :
    (launchSpotInstances g p m0 reg i).messages =
      ["launching spot instances in region: " ++ reg.Name ++ "\n",
       reg.Name ++ ": aws session Error: " ++ err] := by
  simp [launchSpotInstances, hs]

/-- C6 (the code at the failing inputs): when `RunInstances` fails with
`capacity` the task has sent only its starting message and returns the error;
when the first `DescribeInstances` fails with `throttled` the task sends its
starting, sleeping and final-count messages.  In neither run does a message
describe the error. -/
theorem unlogged_task_errors :
    (launchSpotInstances (sampleGlobals "alice") rejectingProvider [] usEast
      (sampleEntry "us-east" 4)).messages =
      ["launching spot instances in region: us-east\n"] ∧
    (launchSpotInstances (sampleGlobals "alice") rejectingProvider [] usEast
      (sampleEntry "us-east" 4)).ending = TaskEnd.returned (some "capacity") ∧
    (launchSpotInstances (sampleGlobals "alice") (sampleProvider fun _ => .error "throttled") []
      usEast (sampleEntry "us-east" 4)).messages =
      ["launching spot instances in region: us-east\n",
       "us-east: sleeping for 60 seconds\n", "us-east: 0 instances"] ∧
    (launchSpotInstances (sampleGlobals "alice") (sampleProvider fun _ => .error "throttled") []
      usEast (sampleEntry "us-east" 4)).queries = 1 := by
  decide

/-- With the `-tag` flag left at its default the flag's value is `whoami`, and
the `Name` tag of the request is `<region code>-<tag>-<run timestamp>-1`. -/
theorem name_tag_default_flag (whoami now : String) (debug : Int) (reg : Region)
    (i : InstanceConfig) (amiId : String) :
    (runInstancesInput
      { whoami := whoami, now := now, tag := parseTagFlag whoami none, debug := debug }
      reg i amiId).TagSpecifications =
      [{ ResourceType := "instance"
         Tags := [{ Key := "Name"
                    Value := reg.Code ++ "-" ++ (parseTagFlag whoami none) ++ "-" ++ now ++ "-1" }] }] :=
  rfl

/-- C9 (the code at the failing input): with `WHOAMI=alice` and `-tag bob` the
flag's value is `bob`, yet the `Name` tag of the creation request is
`ue-alice-2020-01-02_03_04_05-1`: it is not `ue-bob-2020-01-02_03_04_05-1` and
`bob` occurs nowhere in it. -/
theorem name_tag_ignores_tag_flag :
    (sampleGlobals (parseTagFlag "alice" (some "bob"))).tag = "bob" ∧
    (∃ req, (launchSpotInstances (sampleGlobals (parseTagFlag "alice" (some "bob")))
        (sampleProvider fun _ => .error "x") [] usEast (sampleEntry "us-east" 4)).request =
        some req ∧
      req.TagSpecifications = [{ ResourceType := "instance", Tags :=
        [{ Key := "Name", Value := "ue-alice-2020-01-02_03_04_05-1" }] }]) ∧
    "ue-alice-2020-01-02_03_04_05-1" ≠
      usEast.Code ++ "-" ++ "bob" ++ "-" ++ "2020-01-02_03_04_05" ++ "-1" ∧
    ¬ ∃ a b : String, "ue-alice-2020-01-02_03_04_05-1" = a ++ "bob" ++ b := by
  refine ⟨rfl, ⟨_, rfl, by decide⟩, by decide, ?_⟩
  rintro ⟨a, b, h⟩
  have hmem : 'b' ∈ (a ++ "bob" ++ b).data := by
    simp [String.data_append]
  rw [← h] at hmem
  revert hmem
  decide

/-! ## The launch loop of `main` -/

theorem launchLoop_all_present (regions : AWSRegions) (plan : List InstanceConfig)
    (st : MainState)
    (h : ∀ e ∈ plan, ∃ r ∈ regions.Regions, r.Name = e.RegionName) :
    ∃ ts : List (Region × InstanceConfig),
      launchLoop regions plan st =
        { wg := st.wg + plan.length, started := st.started ++ ts, exit := st.exit } ∧
      ts.map Prod.snd = plan ∧
      ∀ t ∈ ts, findRegion regions t.2.RegionName = .ok t.1 := by
  induction plan generalizing st with
  | nil => exact ⟨[], by simp [launchLoop], rfl, by simp⟩
  | cons e rest ih =>
    obtain ⟨_, r, _, _, _, _, hf⟩ :=
      findRegionIn_found regions.Regions e.RegionName (h e (List.mem_cons_self _ _))
    obtain ⟨ts, hts, hmap, hall⟩ :=
      ih { wg := st.wg + 1, started := st.started ++ [(r, e)], exit := st.exit }
        (fun x hx => h x (List.mem_cons_of_mem _ hx))
    refine ⟨(r, e) :: ts, ?_, by simp [hmap], ?_⟩
    · simp only [launchLoop, findRegion, hf, hts, List.length_cons, List.append_assoc,
        List.singleton_append]
      congr 1
      omega
    · intro t ht
      rcases List.mem_cons.mp ht with rfl | ht
      · exact hf
      · exact hall t ht

theorem launchLoop_some_absent (regions : AWSRegions) (plan : List InstanceConfig)
    (st : MainState)
    (h : ∃ e ∈ plan, ∀ r ∈ regions.Regions, r.Name ≠ e.RegionName) :
    ∃ (pre : List InstanceConfig) (e : InstanceConfig) (post : List InstanceConfig)
      (ts : List (Region × InstanceConfig)),
      plan = pre ++ e :: post ∧
      (∀ x ∈ pre, ∃ r ∈ regions.Regions, r.Name = x.RegionName) ∧
      (∀ r ∈ regions.Regions, r.Name ≠ e.RegionName) ∧
      launchLoop regions plan st =
        { wg := st.wg + pre.length + 1, started := st.started ++ ts
          exit := some { status := 1, stderr :=
            "findRegion Error: " ++ ("Can't find the region: " ++ e.RegionName) ++ "\n" ++ "\n" } } ∧
      ts.map Prod.snd = pre ∧
      ∀ t ∈ ts, findRegion regions t.2.RegionName = .ok t.1 := by
  induction plan generalizing st with
  | nil => simp at h
  | cons e rest ih =>
    by_cases he : ∃ r ∈ regions.Regions, r.Name = e.RegionName
    · obtain ⟨_, r, _, _, _, _, hf⟩ := findRegionIn_found regions.Regions e.RegionName he
      have h' : ∃ x ∈ rest, ∀ r ∈ regions.Regions, r.Name ≠ x.RegionName := by
        obtain ⟨x, hx, hxa⟩ := h
        rcases List.mem_cons.mp hx with rfl | hx
        · obtain ⟨r', hr', hn⟩ := he
          exact absurd hn (hxa r' hr')
        · exact ⟨x, hx, hxa⟩
      obtain ⟨pre, x, post, ts, hplan, hpre, hx, hrun, hmap, hall⟩ :=
        ih { wg := st.wg + 1, started := st.started ++ [(r, e)], exit := st.exit } h'
      refine ⟨e :: pre, x, post, (r, e) :: ts, by simp [hplan], ?_, hx, ?_, by simp [hmap], ?_⟩
      · intro y hy
        rcases List.mem_cons.mp hy with rfl | hy
        · exact he
        · exact hpre y hy
      · simp only [launchLoop, findRegion, hf, hrun, List.length_cons, List.append_assoc,
          List.singleton_append]
        congr 1
        omega
      · intro t ht
        rcases List.mem_cons.mp ht with rfl | ht
        · exact hf
        · exact hall t ht
    · have habs : ∀ r ∈ regions.Regions, r.Name ≠ e.RegionName :=
        fun r hr hn => he ⟨r, hr, hn⟩
      refine ⟨[], e, rest, [], rfl, by simp, habs, ?_, rfl, by simp⟩
      simp [launchLoop, findRegion, findRegionIn_absent _ _ habs, exitErrorf]

/-- C5 (as stated, refuted): the plan `[us-east, eu-west]` against the example
catalog names the absent region `eu-west`, the process exits with status 1,
and yet the launcher task of the first entry has been started. -/
theorem task_started_before_exit :
    (∃ e ∈ [sampleEntry "us-east" 4, sampleEntry "eu-west" 2],
      ∀ r ∈ sampleCatalog.Regions, r.Name ≠ e.RegionName) ∧
    ((mainLaunch sampleCatalog
      [sampleEntry "us-east" 4, sampleEntry "eu-west" 2]).exit.map fun x => x.status) = some 1 ∧
    (mainLaunch sampleCatalog [sampleEntry "us-east" 4, sampleEntry "eu-west" 2]).started =
      [(usEast, sampleEntry "us-east" 4)] ∧
    (mainLaunch sampleCatalog [sampleEntry "us-east" 4, sampleEntry "eu-west" 2]).started ≠ [] := by
  refine ⟨⟨sampleEntry "eu-west" 2, by simp, by simp [sampleCatalog, usEast, sampleEntry]⟩,
    by decide, by decide, by decide⟩

/-- C5 (amended): if some entry of the launch plan names a region absent from
the catalog, the launch loop ends the process with exit status 1 and the
diagnostic `findRegion Error: Can't find the region: <name>` for the first such
entry; launcher tasks have been started for exactly the entries before that
one, in plan order, each with the record `findRegion` returns for it, and for
no other entry. -/
theorem missing_region_exits (regions : AWSRegions) (plan : List InstanceConfig)
    (h : ∃ e ∈ plan, ∀ r ∈ regions.Regions, r.Name ≠ e.RegionName) :
    ∃ (pre : List InstanceConfig) (e : InstanceConfig) (post : List InstanceConfig),
      plan = pre ++ e :: post ∧
      (∀ x ∈ pre, ∃ r ∈ regions.Regions, r.Name = x.RegionName) ∧
      (∀ r ∈ regions.Regions, r.Name ≠ e.RegionName) ∧
      (mainLaunch regions plan).exit = some { status := 1, stderr :=
        "findRegion Error: " ++ ("Can't find the region: " ++ e.RegionName) ++ "\n" ++ "\n" } ∧
      (mainLaunch regions plan).started.map Prod.snd = pre ∧
      ∀ t ∈ (mainLaunch regions plan).started, findRegion regions t.2.RegionName = .ok t.1 := by
  obtain ⟨pre, e, post, ts, hplan, hpre, he, hrun, hmap, hall⟩ :=
    launchLoop_some_absent regions plan { wg := 0, started := [], exit := none } h
  refine ⟨pre, e, post, hplan, hpre, he, ?_, ?_, ?_⟩
  · simp [mainLaunch, hrun]
  · simpa [mainLaunch, hrun] using hmap
  · simpa [mainLaunch, hrun] using hall

/-- Witness for C5: the example catalog and a plan whose only entry names
`eu-west`: exit status 1, the diagnostic names `eu-west`, no task started. -/
theorem missing_region_exits_witness :
    ∃ (pre : List InstanceConfig) (e : InstanceConfig) (post : List InstanceConfig),
      [sampleEntry "eu-west" 2] = pre ++ e :: post ∧
      (∀ x ∈ pre, ∃ r ∈ sampleCatalog.Regions, r.Name = x.RegionName) ∧
      (∀ r ∈ sampleCatalog.Regions, r.Name ≠ e.RegionName) ∧
      (mainLaunch sampleCatalog [sampleEntry "eu-west" 2]).exit = some { status := 1, stderr :=
        "findRegion Error: " ++ ("Can't find the region: " ++ e.RegionName) ++ "\n" ++ "\n" } ∧
      (mainLaunch sampleCatalog [sampleEntry "eu-west" 2]).started.map Prod.snd = pre ∧
      ∀ t ∈ (mainLaunch sampleCatalog [sampleEntry "eu-west" 2]).started,
        findRegion sampleCatalog t.2.RegionName = .ok t.1 :=
  missing_region_exits sampleCatalog [sampleEntry "eu-west" 2]
    ⟨sampleEntry "eu-west" 2, by simp, by simp [sampleCatalog, usEast, sampleEntry]⟩

/-- C8: when every entry of a plan of N entries names a region of the catalog,
the launch loop does not exit and starts exactly N launcher tasks, one per
entry in plan order, the k-th task receiving the k-th entry together with the
record `findRegion` returns for that entry's region name. -/
theorem one_task_per_entry (regions : AWSRegions) (plan : List InstanceConfig)
    (h : ∀ e ∈ plan, ∃ r ∈ regions.Regions, r.Name = e.RegionName) :
    (mainLaunch regions plan).exit = none ∧
    (mainLaunch regions plan).started.length = plan.length ∧
    (mainLaunch regions plan).started.map Prod.snd = plan ∧
    (∀ t ∈ (mainLaunch regions plan).started, findRegion regions t.2.RegionName = .ok t.1) ∧
    (∀ k (hk : k < plan.length), ∃ r, findRegion regions (plan.get ⟨k, hk⟩).RegionName = .ok r ∧
      (mainLaunch regions plan).started[k]? = some (r, plan.get ⟨k, hk⟩)) := by
  obtain ⟨ts, hrun, hmap, hall⟩ :=
    launchLoop_all_present regions plan { wg := 0, started := [], exit := none } h
  have hst : (mainLaunch regions plan).started = ts := by simp [mainLaunch, hrun]
  have hlen : ts.length = plan.length := by rw [← hmap, List.length_map]
  refine ⟨by simp [mainLaunch, hrun], by rw [hst, hlen], by rw [hst, hmap],
    by rw [hst]; exact hall, ?_⟩
  intro k hk
  have hk' : k < ts.length := by omega
  have hsnd : (ts.get ⟨k, hk'⟩).2 = plan.get ⟨k, hk⟩ := by
    subst hmap
    simp
  refine ⟨(ts.get ⟨k, hk'⟩).1, ?_, ?_⟩
  · rw [← hsnd]
    exact hall _ (List.get_mem _ _ _)
  · rw [hst, ← hsnd, List.getElem?_eq_getElem hk']
    rfl

/-- Witness for C8: two entries naming the same region of the example catalog
give two tasks, each with the record `usEast`. -/
theorem one_task_per_entry_witness :
    (mainLaunch sampleCatalog [sampleEntry "us-east" 4, sampleEntry "us-east" 2]).started.length = 2 ∧
    (mainLaunch sampleCatalog [sampleEntry "us-east" 4, sampleEntry "us-east" 2]).started =
      [(usEast, sampleEntry "us-east" 4), (usEast, sampleEntry "us-east" 2)] :=
  ⟨(one_task_per_entry sampleCatalog [sampleEntry "us-east" 4, sampleEntry "us-east" 2]
      (by simp [sampleCatalog, usEast, sampleEntry])).2.1, by decide⟩

end Spot
